import Mathlib

/-!
Verification of the OrderFlow procurement workflow core.

The definitions below are a shallow embedding of the TypeScript source:
the sanitizer (src/shared/sanitizers.ts), the raw-record mapping
`buildProcess`, the realtime synchronizer `useProcurementData`, and the
upload handler `handleFileUpload` of the main application module.
-/

/-- The five characters removed by sanitizeTextInput's regex
(less-than, greater-than, double quote, single quote, backtick),
written by code point. -/
def badChar (c : Char) : Bool :=
  c == Char.ofNat 60 || c == Char.ofNat 62 || c == Char.ofNat 34 ||
  c == Char.ofNat 39 || c == Char.ofNat 96

/-- The JavaScript whitespace set removed by String.prototype.trim:
tab, line feed, vertical tab, form feed, carriage return, space,
no-break space, ogham space mark, the U+2000..U+200A range, line and
paragraph separators, narrow no-break space, medium mathematical space,
ideographic space, and the byte-order mark. -/
def isJsWhitespace (c : Char) : Bool :=
  c == Char.ofNat 9 || c == Char.ofNat 10 || c == Char.ofNat 11 ||
  c == Char.ofNat 12 || c == Char.ofNat 13 || c == Char.ofNat 32 ||
  c == Char.ofNat 160 || c == Char.ofNat 5760 ||
  (8192 ≤ c.toNat && c.toNat ≤ 8202) ||
  c == Char.ofNat 8232 || c == Char.ofNat 8233 || c == Char.ofNat 8239 ||
  c == Char.ofNat 8287 || c == Char.ofNat 12288 || c == Char.ofNat 65279

/-- The character-removal half of sanitizeTextInput:
value.replace of the regex class by the empty string. -/
def stripBadChars (l : List Char) : List Char :=
  l.filter (fun c => !badChar c)

/-- String.prototype.trim modelled on character lists: drop JavaScript
whitespace from the front, then from the back. -/
def trimWs (l : List Char) : List Char :=
  ((l.dropWhile isJsWhitespace).reverse.dropWhile isJsWhitespace).reverse

/-- sanitizeTextInput on character lists: strip the markup-hazard
characters, then trim. -/
def sanitizeChars (l : List Char) : List Char :=
  trimWs (stripBadChars l)

/-- sanitizeTextInput from src/shared/sanitizers.ts. -/
def sanitizeTextInput (s : String) : String :=
  String.mk (sanitizeChars s.data)

/-- A JavaScript runtime value, as far as the mapping function can
observe one: undefined, null, a string, a number, a boolean, or an
object given by its own enumerable properties. -/
inductive JSVal where
  | undef
  | null
  | str (s : String)
  | num (n : Int)
  | boolVal (b : Bool)
  | obj (fields : List (String × JSVal))

/-- A backing-store document: a JavaScript object's property list. -/
def JSRecord := List (String × JSVal)

/-- Property access data.k on a record: the bound value, or undefined. -/
def jsGet (r : JSRecord) (k : String) : JSVal :=
  match List.find? (fun kv => kv.1 == k) r with
  | some kv => kv.2
  | none => JSVal.undef

/-- The JavaScript nullish-coalescing operator v ?? dflt. -/
def nullishOr (v dflt : JSVal) : JSVal :=
  match v with
  | JSVal.undef => dflt
  | JSVal.null => dflt
  | _ => v

/-- Is the value undefined or null (the values the ?? operator replaces)? -/
def isNullish : JSVal → Bool
  | JSVal.undef => true
  | JSVal.null => true
  | _ => false

/-- Is the value a string, undefined, or null (the shapes on which the
id/supplierName expressions of buildProcess cannot raise)? -/
def isStringOrNullish : JSVal → Bool
  | JSVal.undef => true
  | JSVal.null => true
  | JSVal.str _ => true
  | _ => false

/-- sanitizeTextInput applied to an arbitrary runtime value: .replace
exists only on strings, so every other receiver raises a TypeError. -/
def sanitizeJSString : JSVal → Except String String
  | JSVal.str s => Except.ok (sanitizeTextInput s)
  | _ => Except.error "TypeError"

/-- The defaultStep constant of the source: status pending,
conflictReason null, data null. -/
def defaultStep : List (String × JSVal) :=
  [("status", JSVal.str "pending"), ("conflictReason", JSVal.null), ("data", JSVal.null)]

/-- Spreading a string in an object literal yields its index properties. -/
def stringIndexFields (s : String) : List (String × JSVal) :=
  s.data.enum.map (fun p => (toString p.1, JSVal.str (String.mk [p.2])))

/-- The own enumerable properties contributed by spreading a value in an
object literal: an object's fields, a string's index properties, and
nothing for the primitives. -/
def spreadFields : JSVal → List (String × JSVal)
  | JSVal.obj fs => fs
  | JSVal.str s => stringIndexFields s
  | _ => []

/-- The object literal with two spreads, with the second
spread's keys overriding the first. -/
def mergeFields (base extra : List (String × JSVal)) : List (String × JSVal) :=
  base.filter (fun kv => !(extra.any (fun kv2 => kv2.1 == kv.1))) ++ extra

/-- One stage of buildProcess: the raw stage value, defaulted to the
empty object when nullish, spread over defaultStep. -/
def buildStep (v : JSVal) : List (String × JSVal) :=
  mergeFields defaultStep (spreadFields (nullishOr v (JSVal.obj [])))

/-- The Process shape produced by buildProcess. The id and supplierName
fields went through the sanitizer, so they are strings; status and
createdAt are passed through unvalidated; the stages are merged
property lists. -/
structure BuiltProcess where
  id : String
  supplierName : String
  status : JSVal
  createdAt : JSVal
  order : List (String × JSVal)
  confirmation : List (String × JSVal)
  delivery : List (String × JSVal)

/-- buildProcess from the main application module: maps a raw
backing-store document plus fallback identifier to a Process value.
Sanitizing a non-string id or supplierName raises, which the Except
models. -/
def buildProcess (data : JSRecord) (fallbackId : String) : Except String BuiltProcess :=
  match sanitizeJSString (nullishOr (jsGet data "id") (JSVal.str fallbackId)),
        sanitizeJSString (nullishOr (jsGet data "supplierName") (JSVal.str "Unbekannt")) with
  | Except.error e, _ => Except.error e
  | Except.ok _, Except.error e => Except.error e
  | Except.ok id, Except.ok supplierName =>
    Except.ok
      ⟨id, supplierName,
       nullishOr (jsGet data "status") (JSVal.str "open"),
       nullishOr (jsGet data "createdAt") JSVal.null,
       buildStep (jsGet data "order"),
       buildStep (jsGet data "confirmation"),
       buildStep (jsGet data "delivery")⟩

/-- StepStatus from the main application module. -/
inductive StepStatus where
  | pending
  | analyzing
  | verified
  | conflict
deriving DecidableEq

/-- ProcessStatus from the main application module; the source's
open value is rendered open_ because Lean reserves the word. -/
inductive ProcessStatus where
  | open_
  | conflict
  | completed
deriving DecidableEq

/-- DocumentStep from the main application module. -/
structure DocumentStep where
  status : StepStatus
  fileName : Option String
  uploadedAt : Option Nat
  conflictReason : Option String
deriving DecidableEq

/-- ProcurementProcess from the main application module. -/
structure ProcurementProcess where
  id : String
  supplierName : String
  status : ProcessStatus
  createdAt : Option Nat
  order : DocumentStep
  confirmation : DocumentStep
  delivery : DocumentStep
deriving DecidableEq

/-- The two user-submittable stages accepted by sanitizeStage. -/
inductive UploadStage where
  | confirmation
  | delivery
deriving DecidableEq

/-- sanitizeStage from the main application module. -/
def sanitizeStage (stage : String) : Option UploadStage :=
  if stage = "confirmation" then some UploadStage.confirmation
  else if stage = "delivery" then some UploadStage.delivery
  else none

/-- Read the submitted stage out of a process. -/
def getStage (p : ProcurementProcess) : UploadStage → DocumentStep
  | UploadStage.confirmation => p.confirmation
  | UploadStage.delivery => p.delivery

/-- Replace the submitted stage of a process. -/
def setStage (p : ProcurementProcess) (stage : UploadStage) (st : DocumentStep) :
    ProcurementProcess :=
  match stage with
  | UploadStage.confirmation => { p with confirmation := st }
  | UploadStage.delivery => { p with delivery := st }

/-- The fixed conflictReason placeholder written by the fallback branch. -/
def conflictReasonText : String := "Menge weicht ab (Simulierter Fehler)"

/-- The two updateDoc partial-field writes handleFileUpload can issue:
the optimistic analyzing write, and the fallback-classifier combined
write of stage status, conflictReason and aggregate status. -/
inductive StoreWrite where
  | analyzingWrite (stage : UploadStage) (fileName : String) (uploadedAt : Nat)
  | fallbackWrite (stage : UploadStage) (isConflict : Bool)
deriving DecidableEq

/-- Apply one partial-field write to a stored document. -/
def applyWrite (p : ProcurementProcess) : StoreWrite → ProcurementProcess
  | StoreWrite.analyzingWrite stage fn t =>
      setStage p stage
        { getStage p stage with
            status := StepStatus.analyzing, fileName := some fn, uploadedAt := some t }
  | StoreWrite.fallbackWrite stage isConflict =>
      let p1 := setStage p stage
        { getStage p stage with
            status := if isConflict then StepStatus.conflict else StepStatus.verified,
            conflictReason := if isConflict then some conflictReasonText else none }
      { p1 with
          status :=
            if isConflict then ProcessStatus.conflict
            else if stage = UploadStage.delivery then ProcessStatus.completed
            else ProcessStatus.open_ }

/-- Apply a sequence of writes in order. -/
def applyWrites (p : ProcurementProcess) (ws : List StoreWrite) : ProcurementProcess :=
  ws.foldl applyWrite p

/-- The pseudo-random classifier draw of the fallback branch:
Math.random() modelled as a rational in the unit interval, conflict
exactly when the draw exceeds 0.7. -/
def isConflictDraw (r : ℚ) : Bool :=
  decide (r > 7/10)

/-- The file value handed to the handler by the file input. -/
structure UploadFile where
  name : String
deriving DecidableEq

/-- The view-state inputs handleFileUpload reads: the raw stage string,
the chosen file, the selected process id, whether Firebase services are
configured, the two stored webhook URLs, and the submission clock. -/
structure HandlerInput where
  rawStage : String
  file : Option UploadFile
  selectedId : Option String
  servicesPresent : Bool
  webhookConfirmationUrl : String
  webhookDeliveryUrl : String
  uploadedNow : Nat
deriving DecidableEq

/-- What the fetch of the verification endpoint does: raise a transport
error, or return a response whose ok flag is given. -/
inductive FetchBehavior where
  | throws
  | responds (ok : Bool)
deriving DecidableEq

/-- The behavior of the asynchronous collaborators during one handler
run: does each updateDoc raise, what the fetch does, and the
Math.random() draw. -/
structure HandlerEnv where
  updateAnalyzingThrows : Bool
  fetchBehavior : FetchBehavior
  randomDraw : ℚ
  updateFallbackThrows : Bool

/-- The webhook URL the handler selects for the submitted stage. -/
def webhookUrlFor (inp : HandlerInput) : UploadStage → String
  | UploadStage.confirmation => inp.webhookConfirmationUrl
  | UploadStage.delivery => inp.webhookDeliveryUrl

/-- The observable effects of one handleFileUpload run: the store writes
issued (in order), the setUploadingStage calls issued (in order), and
whether the catch branch surfaced an error alert. -/
structure HandlerResult where
  writes : List StoreWrite
  markerWrites : List (Option UploadStage)
  alerted : Bool
deriving DecidableEq

/-- handleFileUpload from the main application module, as a function of
its view-state inputs and of the collaborators' behavior.  Guard
clauses return before touching anything; past them the marker is set,
the optimistic analyzing write issued, then either the webhook is
dispatched (non-ok responses are thrown) or the fallback classifier
writes the outcome; the catch alerts and the finally clears the
marker on every path. -/
def handleFileUpload (inp : HandlerInput) (env : HandlerEnv) : HandlerResult :=
  match sanitizeStage inp.rawStage, inp.file with
  | none, _ => ⟨[], [], false⟩
  | some _, none => ⟨[], [], false⟩
  | some stage, some file =>
    match inp.selectedId with
    | none => ⟨[], [], false⟩
    | some rawId =>
      if sanitizeTextInput rawId = "" ∨ inp.servicesPresent = false then ⟨[], [], false⟩
      else
        if env.updateAnalyzingThrows then
          ⟨[], [some stage, none], true⟩
        else
          let w1 := StoreWrite.analyzingWrite stage (sanitizeTextInput file.name) inp.uploadedNow
          if webhookUrlFor inp stage ≠ "" then
            match env.fetchBehavior with
            | FetchBehavior.throws => ⟨[w1], [some stage, none], true⟩
            | FetchBehavior.responds ok =>
              if ok then ⟨[w1], [some stage, none], false⟩
              else ⟨[w1], [some stage, none], true⟩
          else
            if env.updateFallbackThrows then
              ⟨[w1], [some stage, none], true⟩
            else
              ⟨[w1, StoreWrite.fallbackWrite stage (isConflictDraw env.randomDraw)],
               [some stage, none], false⟩

/-- The four ways App renders the delivery panel of the detail view:
blocked behind the confirmation stage, showing the upload input,
showing the in-flight spinner, or showing the completed card. -/
inductive DeliveryPanel where
  | blocked
  | uploadInput
  | spinner
  | done
deriving DecidableEq

/-- The delivery panel App renders for a selected process: blocked
unless the confirmation stage is verified, then the dropzone while the
delivery stage is pending or conflicted (a spinner replaces the input
while an upload for the stage is in flight), else the completed card. -/
def renderDeliveryPanel (p : ProcurementProcess) (uploadingStage : Option UploadStage) :
    DeliveryPanel :=
  if p.confirmation.status ≠ StepStatus.verified then DeliveryPanel.blocked
  else if p.delivery.status = StepStatus.pending ∨ p.delivery.status = StepStatus.conflict then
    if uploadingStage = some UploadStage.delivery then DeliveryPanel.spinner
    else DeliveryPanel.uploadInput
  else DeliveryPanel.done

/-- A user attempt to submit the delivery stage of the selected
process: the handler is reachable only through the file input, which
App renders only when the panel shows the dropzone; otherwise nothing
runs. -/
def attemptDeliverySubmission (p : ProcurementProcess) (uploadingStage : Option UploadStage)
    (inp : HandlerInput) (env : HandlerEnv) : HandlerResult :=
  if renderDeliveryPanel p uploadingStage = DeliveryPanel.uploadInput then
    handleFileUpload inp env
  else ⟨[], [], false⟩

/-- The aggregate-status derivation rule, written from the
specification's words (section 4.3) for comparison against the code:
conflict when either later stage conflicts, else completed when
delivery is verified, else open. -/
def specDeriveStatus (conf del : StepStatus) : ProcessStatus :=
  if conf = StepStatus.conflict ∨ del = StepStatus.conflict then ProcessStatus.conflict
  else if del = StepStatus.verified then ProcessStatus.completed
  else ProcessStatus.open_

/-- Lexicographic code-point comparison of two character lists: the
order underlying the sort comparator (a, b) => b.id.localeCompare(a.id)
(localeCompare modelled as plain code-point string comparison). -/
def charListLt : List Char → List Char → Bool
  | [], [] => false
  | [], _ :: _ => true
  | _ :: _, [] => false
  | a :: as, b :: bs =>
    if a.toNat < b.toNat then true
    else if b.toNat < a.toNat then false
    else charListLt as bs

/-- Is the first string lexicographically smaller than the second? -/
def strLt (a b : String) : Bool :=
  charListLt a.data b.data

/-- One step of the stable insertion modelling
Array.prototype.sort with comparator (a, b) => b.id.localeCompare(a.id):
an element moves ahead of exactly the processes whose id is strictly
smaller, so ids end up in descending lexicographic order and ties keep
their arrival order. -/
def insertDescById (p : BuiltProcess) : List BuiltProcess → List BuiltProcess
  | [] => [p]
  | q :: rest =>
    if strLt q.id p.id then p :: q :: rest
    else q :: insertDescById p rest

/-- The synchronizer's sort: processes ordered by id, descending. -/
def sortDescById (l : List BuiltProcess) : List BuiltProcess :=
  l.foldl (fun acc p => insertDescById p acc) []

/-- Sortedness by descending id: no earlier element's id is
lexicographically smaller than a later element's id. -/
def sortedByIdDesc (l : List BuiltProcess) : Prop :=
  l.Pairwise (fun a b => strLt a.id b.id = false)

/-- The connection state reported by the synchronizer. -/
inductive ConnectionStatus where
  | connecting
  | connected
  | error
deriving DecidableEq

/-- An event delivered to the useProcurementData listener: a snapshot
carrying the full document set as (record key, document) pairs, or a
listener error. -/
inductive SyncEvent where
  | snapshot (docs : List (String × JSRecord))
  | listenerError

/-- The synchronizer's view state: connection status and the in-memory
collection. -/
structure SyncState where
  connectionStatus : ConnectionStatus
  items : List BuiltProcess

/-- The state before any notification: connecting with an empty
collection when services are configured, error with an empty collection
otherwise. -/
def initSyncState (servicesPresent : Bool) : SyncState :=
  if servicesPresent then ⟨ConnectionStatus.connecting, []⟩
  else ⟨ConnectionStatus.error, []⟩

/-- Mapping a snapshot's documents: snapshot.docs.map over buildProcess
with each document's record key as the fallback id.  A document on
which buildProcess raises aborts the whole map. -/
def mapSnapshot (docs : List (String × JSRecord)) : Except String (List BuiltProcess) :=
  docs.mapM (fun d => buildProcess d.2 d.1)

/-- One listener callback of useProcurementData.  A snapshot first
reports connected, then rebuilds and sorts the collection; if mapping a
document raises, the items update is never reached.  A listener error
reports the error state and leaves the collection as it was. -/
def stepSync (st : SyncState) : SyncEvent → SyncState
  | SyncEvent.snapshot docs =>
    match mapSnapshot docs with
    | Except.ok procs => ⟨ConnectionStatus.connected, sortDescById procs⟩
    | Except.error _ => ⟨ConnectionStatus.connected, st.items⟩
  | SyncEvent.listenerError => ⟨ConnectionStatus.error, st.items⟩

/-- The synchronizer state after a sequence of listener events. -/
def runSync (servicesPresent : Bool) (events : List SyncEvent) : SyncState :=
  events.foldl stepSync (initSyncState servicesPresent)

/-- Does the event carry a snapshot? -/
def isSnapshotEvent : SyncEvent → Bool
  | SyncEvent.snapshot _ => true
  | SyncEvent.listenerError => false

/-- The ten equispaced draws k/10 of the unit interval. -/
def tenthGrid : List ℚ :=
  [0, 1/10, 2/10, 3/10, 4/10, 5/10, 6/10, 7/10, 8/10, 9/10]

/-- The stored document of C1's counterexample: its aggregate status
field says open while its confirmation stage says conflict. -/
def c1Record : JSRecord :=
  [("id", JSVal.str "PO-9"), ("status", JSVal.str "open"),
   ("confirmation", JSVal.obj [("status", JSVal.str "conflict")])]

/-- The snapshot document of C5's counterexample. -/
def c5Doc : JSRecord := [("supplierName", JSVal.str "Acme")]

theorem dropWhile_dropWhile (p : Char → Bool) (l : List Char) :
    (l.dropWhile p).dropWhile p = l.dropWhile p := by
  induction l with
  | nil => rfl
  | cons a t ih =>
    by_cases h : p a
    · simp [List.dropWhile_cons, h, ih]
    · simp [List.dropWhile_cons, h]

theorem dropWhile_reverse_trim (p : Char → Bool) (m : List Char) (hm : m.dropWhile p = m) :
    ((m.reverse.dropWhile p).reverse).dropWhile p = (m.reverse.dropWhile p).reverse := by
  cases m with
  | nil => rfl
  | cons a t =>
    have ha : p a = false := by
      by_contra hpa
      rw [Bool.not_eq_false] at hpa
      rw [List.dropWhile_cons, if_pos hpa] at hm
      have hle : (t.dropWhile p).length ≤ t.length := (List.dropWhile_sublist p).length_le
      rw [hm] at hle
      simp at hle
    rw [List.reverse_cons, List.dropWhile_append]
    by_cases hd : ((t.reverse.dropWhile p).isEmpty)
    · rw [if_pos hd]
      simp [List.dropWhile_cons, ha]
    · rw [if_neg hd]
      rw [List.reverse_append]
      simp [List.dropWhile_cons, ha]

theorem trimWs_idem (l : List Char) : trimWs (trimWs l) = trimWs l := by
  unfold trimWs
  have h1 : (l.dropWhile isJsWhitespace).dropWhile isJsWhitespace
      = l.dropWhile isJsWhitespace := dropWhile_dropWhile _ _
  have hT := dropWhile_reverse_trim isJsWhitespace (l.dropWhile isJsWhitespace) h1
  rw [hT, List.reverse_reverse, dropWhile_dropWhile]

theorem mem_trimWs (c : Char) (l : List Char) (h : c ∈ trimWs l) : c ∈ l := by
  unfold trimWs at h
  rw [List.mem_reverse] at h
  have h2 := (List.dropWhile_sublist isJsWhitespace).subset h
  rw [List.mem_reverse] at h2
  exact (List.dropWhile_sublist isJsWhitespace).subset h2

theorem sanitizeChars_no_bad (l : List Char) (c : Char) (h : c ∈ sanitizeChars l) :
    badChar c = false := by
  unfold sanitizeChars at h
  have h2 := mem_trimWs c _ h
  unfold stripBadChars at h2
  have h3 := List.of_mem_filter h2
  simpa using h3

theorem stripBadChars_sanitizeChars (l : List Char) :
    stripBadChars (sanitizeChars l) = sanitizeChars l := by
  unfold stripBadChars
  apply List.filter_eq_self.mpr
  intro a ha
  simp [sanitizeChars_no_bad l a ha]

theorem sanitizeChars_idem (l : List Char) :
    sanitizeChars (sanitizeChars l) = sanitizeChars l := by
  show trimWs (stripBadChars (sanitizeChars l)) = sanitizeChars l
  rw [stripBadChars_sanitizeChars]
  exact trimWs_idem (stripBadChars l)

/-- C8: for every input string x, sanitize(sanitize(x)) = sanitize(x),
and sanitize(x) contains none of the characters stripped by the regex
(less-than, greater-than, double quote, single quote, backtick). -/
theorem c8_sanitize_idempotent_and_strips :
    ∀ s : String, sanitizeTextInput (sanitizeTextInput s) = sanitizeTextInput s
      ∧ ∀ c ∈ (sanitizeTextInput s).data, badChar c = false := by
  intro s
  constructor
  · show String.mk (sanitizeChars (String.mk (sanitizeChars s.data)).data) = _
    have hdata : (String.mk (sanitizeChars s.data)).data = sanitizeChars s.data := rfl
    rw [hdata, sanitizeChars_idem]
    rfl
  · intro c hc
    exact sanitizeChars_no_bad s.data c hc

/-- Witness for C8 at a concrete string holding both markup-hazard
characters and surrounding whitespace. -/
theorem c8_sanitize_idempotent_and_strips_witness :
    sanitizeTextInput (sanitizeTextInput "  <a>  ") = sanitizeTextInput "  <a>  "
      ∧ badChar (Char.ofNat 97) = false :=
  ⟨(c8_sanitize_idempotent_and_strips "  <a>  ").1,
   (c8_sanitize_idempotent_and_strips "  <a>  ").2 (Char.ofNat 97) (by decide)⟩

theorem handleFileUpload_markerWrites (inp : HandlerInput) (env : HandlerEnv) :
    (handleFileUpload inp env).markerWrites = []
      ∨ ∃ st, (handleFileUpload inp env).markerWrites = [some st, none] := by
  unfold handleFileUpload
  cases hst : sanitizeStage inp.rawStage with
  | none => exact Or.inl rfl
  | some stage =>
    cases hf : inp.file with
    | none => exact Or.inl rfl
    | some file =>
      cases hid : inp.selectedId with
      | none => exact Or.inl rfl
      | some rawId =>
        dsimp only
        by_cases hguard : sanitizeTextInput rawId = "" ∨ inp.servicesPresent = false
        · rw [if_pos hguard]
          exact Or.inl rfl
        · rw [if_neg hguard]
          by_cases hup : env.updateAnalyzingThrows
          · rw [if_pos hup]
            exact Or.inr ⟨stage, rfl⟩
          · rw [if_neg hup]
            by_cases hurl : webhookUrlFor inp stage ≠ ""
            · rw [if_pos hurl]
              cases env.fetchBehavior with
              | throws => exact Or.inr ⟨stage, rfl⟩
              | responds ok =>
                cases ok
                · exact Or.inr ⟨stage, rfl⟩
                · exact Or.inr ⟨stage, rfl⟩
            · rw [if_neg hurl]
              by_cases hfb : env.updateFallbackThrows
              · rw [if_pos hfb]
                exact Or.inr ⟨stage, rfl⟩
              · rw [if_neg hfb]
                exact Or.inr ⟨stage, rfl⟩

/-- C9: every handler run that set the in-flight uploading marker ends
by clearing it, whichever exit path was taken (success, dispatch
failure, or a thrown exception): the last setUploadingStage call of a
nonempty call sequence is the clearing one. -/
theorem c9_marker_cleared_on_exit (inp : HandlerInput) (env : HandlerEnv)
    (h : (handleFileUpload inp env).markerWrites ≠ []) :
    (handleFileUpload inp env).markerWrites.getLast? = some none := by
  rcases handleFileUpload_markerWrites inp env with hmw | ⟨st, hmw⟩
  · exact absurd hmw h
  · rw [hmw]
    rfl

/-- Witness for C9: a confirmation-stage run whose fetch raises still
ends with the marker cleared. -/
theorem c9_marker_cleared_on_exit_witness :
    (handleFileUpload
      ⟨"confirmation", some ⟨"a.pdf"⟩, some "PO-1", true, "https://hook", "", 0⟩
      ⟨false, FetchBehavior.throws, 0, false⟩).markerWrites.getLast? = some none :=
  c9_marker_cleared_on_exit _ _ (by decide)

/-- C10: a handler call rejected by a guard clause (unknown stage name,
no file chosen, no process selected or its sanitized id empty, or no
backing-store services configured) issues no store write and never
touches the in-flight uploading marker. -/
theorem c10_guard_clauses_no_effect (inp : HandlerInput) (env : HandlerEnv)
    (h : sanitizeStage inp.rawStage = none ∨ inp.file = none ∨ inp.selectedId = none
      ∨ (∃ s, inp.selectedId = some s ∧ sanitizeTextInput s = "")
      ∨ inp.servicesPresent = false) :
    handleFileUpload inp env = ⟨[], [], false⟩ := by
  unfold handleFileUpload
  cases hst : sanitizeStage inp.rawStage with
  | none => rfl
  | some stage =>
    cases hf : inp.file with
    | none => rfl
    | some file =>
      cases hid : inp.selectedId with
      | none => rfl
      | some rawId =>
        dsimp only
        have hguard : sanitizeTextInput rawId = "" ∨ inp.servicesPresent = false := by
          rcases h with h | h | h | ⟨s, hs, hempty⟩ | h
          · rw [hst] at h
            exact absurd h (by simp)
          · rw [hf] at h
            exact absurd h (by simp)
          · rw [hid] at h
            exact absurd h (by simp)
          · rw [hid] at hs
            have : s = rawId := by
              injection hs with h2
              exact h2.symm
            exact Or.inl (this ▸ hempty)
          · exact Or.inr h
        rw [if_pos hguard]

/-- Witness for C10: an unknown stage name is rejected without effect. -/
theorem c10_guard_clauses_no_effect_witness :
    handleFileUpload ⟨"order", some ⟨"a.pdf"⟩, some "PO-1", true, "", "", 0⟩
      ⟨false, FetchBehavior.responds true, 0, false⟩ = ⟨[], [], false⟩ :=
  c10_guard_clauses_no_effect _ _ (Or.inl (by decide))

theorem getStage_setStage (p : ProcurementProcess) (stage : UploadStage) (st : DocumentStep) :
    getStage (setStage p stage st) stage = st := by
  cases stage <;> rfl

theorem status_setStage (p : ProcurementProcess) (stage : UploadStage) (st : DocumentStep) :
    (setStage p stage st).status = p.status := by
  cases stage <;> rfl

theorem getStage_applyWrite_analyzing (p : ProcurementProcess) (stage : UploadStage)
    (fn : String) (t : Nat) :
    (getStage (applyWrite p (StoreWrite.analyzingWrite stage fn t)) stage).status
      = StepStatus.analyzing := by
  cases stage <;> rfl

theorem status_applyWrite_analyzing (p : ProcurementProcess) (stage : UploadStage)
    (fn : String) (t : Nat) :
    (applyWrite p (StoreWrite.analyzingWrite stage fn t)).status = p.status := by
  cases stage <;> rfl

/-- C2: when the selected process's confirmation stage is not verified,
App renders the delivery panel blocked, so an attempted delivery
submission runs nothing: no store write, no marker write, no alert, and
the document (in particular its delivery stage) is untouched. -/
theorem c2_delivery_blocked_without_verified_confirmation
    (p : ProcurementProcess) (uploadingStage : Option UploadStage)
    (inp : HandlerInput) (env : HandlerEnv)
    (h : p.confirmation.status ≠ StepStatus.verified) :
    attemptDeliverySubmission p uploadingStage inp env = ⟨[], [], false⟩
      ∧ applyWrites p (attemptDeliverySubmission p uploadingStage inp env).writes = p := by
  have hpanel : renderDeliveryPanel p uploadingStage = DeliveryPanel.blocked := by
    unfold renderDeliveryPanel
    rw [if_pos h]
  have hres : attemptDeliverySubmission p uploadingStage inp env = ⟨[], [], false⟩ := by
    unfold attemptDeliverySubmission
    rw [hpanel]
    simp
  refine ⟨hres, ?_⟩
  rw [hres]
  rfl

/-- Witness for C2: a process with pending confirmation rejects a
delivery submission without any effect. -/
theorem c2_delivery_blocked_without_verified_confirmation_witness :
    attemptDeliverySubmission
        ⟨"PO-1", "S", ProcessStatus.open_, none,
         ⟨StepStatus.verified, none, none, none⟩,
         ⟨StepStatus.pending, none, none, none⟩,
         ⟨StepStatus.pending, none, none, none⟩⟩
        none
        ⟨"delivery", some ⟨"a.pdf"⟩, some "PO-1", true, "", "", 0⟩
        ⟨false, FetchBehavior.responds true, 0, false⟩ = ⟨[], [], false⟩ :=
  (c2_delivery_blocked_without_verified_confirmation _ _ _ _ (by decide)).1

/-- C6: with a verification endpoint configured, when the dispatch
fails (transport error or non-2xx response) after the optimistic write
succeeded, the run issues exactly the analyzing write: the submitted
stage is analyzing in the store, no rollback write is issued, the
aggregate status field is untouched, and the failure is surfaced via
the alert. -/
theorem c6_dispatch_failure_leaves_analyzing
    (inp : HandlerInput) (env : HandlerEnv) (stage : UploadStage) (file : UploadFile)
    (rawId : String) (p : ProcurementProcess)
    (hst : sanitizeStage inp.rawStage = some stage)
    (hf : inp.file = some file)
    (hid : inp.selectedId = some rawId)
    (hid2 : sanitizeTextInput rawId ≠ "")
    (hsvc : inp.servicesPresent = true)
    (hup : env.updateAnalyzingThrows = false)
    (hurl : webhookUrlFor inp stage ≠ "")
    (hfail : env.fetchBehavior = FetchBehavior.throws
      ∨ env.fetchBehavior = FetchBehavior.responds false) :
    (handleFileUpload inp env).writes
        = [StoreWrite.analyzingWrite stage (sanitizeTextInput file.name) inp.uploadedNow]
      ∧ (getStage (applyWrites p (handleFileUpload inp env).writes) stage).status
          = StepStatus.analyzing
      ∧ (applyWrites p (handleFileUpload inp env).writes).status = p.status
      ∧ (handleFileUpload inp env).alerted = true := by
  have hguard : ¬(sanitizeTextInput rawId = "" ∨ inp.servicesPresent = false) := by
    rintro (hg | hg)
    · exact hid2 hg
    · rw [hsvc] at hg
      exact Bool.noConfusion hg
  have hrun : handleFileUpload inp env =
      ⟨[StoreWrite.analyzingWrite stage (sanitizeTextInput file.name) inp.uploadedNow],
       [some stage, none], true⟩ := by
    rcases hfail with hfb | hfb
    · simp [handleFileUpload, hst, hf, hid, hguard, hup, hurl, hfb]
    · simp [handleFileUpload, hst, hf, hid, hguard, hup, hurl, hfb]
  rw [hrun]
  exact ⟨rfl, getStage_applyWrite_analyzing p stage _ _,
    status_applyWrite_analyzing p stage _ _, rfl⟩

/-- Witness for C6: a confirmation submission against a configured
endpoint answering a non-2xx response leaves the stage analyzing. -/
theorem c6_dispatch_failure_leaves_analyzing_witness :
    (handleFileUpload
        ⟨"confirmation", some ⟨"a.pdf"⟩, some "PO-1", true, "https://hook", "", 7⟩
        ⟨false, FetchBehavior.responds false, 0, false⟩).writes
      = [StoreWrite.analyzingWrite UploadStage.confirmation "a.pdf" 7]
    ∧ (handleFileUpload
        ⟨"confirmation", some ⟨"a.pdf"⟩, some "PO-1", true, "https://hook", "", 7⟩
        ⟨false, FetchBehavior.responds false, 0, false⟩).alerted = true := by
  have h := c6_dispatch_failure_leaves_analyzing
    ⟨"confirmation", some ⟨"a.pdf"⟩, some "PO-1", true, "https://hook", "", 7⟩
    ⟨false, FetchBehavior.responds false, 0, false⟩
    UploadStage.confirmation ⟨"a.pdf"⟩ "PO-1"
    ⟨"PO-1", "S", ProcessStatus.open_, none,
     ⟨StepStatus.pending, none, none, none⟩,
     ⟨StepStatus.pending, none, none, none⟩,
     ⟨StepStatus.pending, none, none, none⟩⟩
    (by decide) rfl rfl (by decide) rfl rfl (by decide) (Or.inr rfl)
  exact ⟨h.1, h.2.2.2⟩

theorem getStage_fallbackWrite (p : ProcurementProcess) (stage : UploadStage) (b : Bool) :
    getStage (applyWrite p (StoreWrite.fallbackWrite stage b)) stage
      = { getStage p stage with
            status := if b then StepStatus.conflict else StepStatus.verified,
            conflictReason := if b then some conflictReasonText else none } := by
  cases stage <;> rfl

/-- C3 counterexample: the claim puts the verified outcome at roughly
30 percent of the draw space, but Math.random() > 0.7 makes conflict
the 30-percent branch.  Over the ten equispaced draws k/10 the fallback
classifier yields verified eight times (every draw up to and including
0.7) and conflict twice — the verified share of the input space is 0.7,
not roughly 0.3. -/
theorem c3_counterexample :
    tenthGrid.countP (fun r => !isConflictDraw r) = 8
      ∧ tenthGrid.countP (fun r => isConflictDraw r) = 2 := by
  have h0 : isConflictDraw 0 = false := by
    unfold isConflictDraw
    exact decide_eq_false (by norm_num)
  have h1 : isConflictDraw (1/10) = false := by
    unfold isConflictDraw
    exact decide_eq_false (by norm_num)
  have h2 : isConflictDraw (2/10) = false := by
    unfold isConflictDraw
    exact decide_eq_false (by norm_num)
  have h3 : isConflictDraw (3/10) = false := by
    unfold isConflictDraw
    exact decide_eq_false (by norm_num)
  have h4 : isConflictDraw (4/10) = false := by
    unfold isConflictDraw
    exact decide_eq_false (by norm_num)
  have h5 : isConflictDraw (5/10) = false := by
    unfold isConflictDraw
    exact decide_eq_false (by norm_num)
  have h6 : isConflictDraw (6/10) = false := by
    unfold isConflictDraw
    exact decide_eq_false (by norm_num)
  have h7 : isConflictDraw (7/10) = false := by
    unfold isConflictDraw
    exact decide_eq_false (by norm_num)
  have h8 : isConflictDraw (8/10) = true := by
    unfold isConflictDraw
    exact decide_eq_true (by norm_num)
  have h9 : isConflictDraw (9/10) = true := by
    unfold isConflictDraw
    exact decide_eq_true (by norm_num)
  constructor
  · simp only [tenthGrid, List.countP_cons, List.countP_nil, h0, h1, h2, h3, h4, h5,
      h6, h7, h8, h9, Bool.not_false, Bool.not_true, eq_self_iff_true, if_true,
      Bool.false_eq_true, if_false]
  · simp only [tenthGrid, List.countP_cons, List.countP_nil, h0, h1, h2, h3, h4, h5,
      h6, h7, h8, h9, Bool.not_false, Bool.not_true, eq_self_iff_true, if_true,
      Bool.false_eq_true, if_false]

/-- C3 amended: with no verification endpoint configured, the fallback
classifier marks the submitted stage verified exactly on draws
r ≤ 0.7 — 70 percent of the unit-interval input space — and conflict
with the fixed placeholder reason on the remaining 30 percent. -/
theorem c3_amended_fallback_classifier (p : ProcurementProcess) (stage : UploadStage)
    (r : ℚ) (_h0 : 0 ≤ r) (_h1 : r < 1) :
    ((getStage (applyWrite p (StoreWrite.fallbackWrite stage (isConflictDraw r))) stage).status
        = StepStatus.verified ↔ r ≤ 7/10)
    ∧ (7/10 < r →
        (getStage (applyWrite p (StoreWrite.fallbackWrite stage (isConflictDraw r))) stage).conflictReason
          = some conflictReasonText) := by
  rw [getStage_fallbackWrite]
  by_cases hr : (7 : ℚ)/10 < r
  · have hd : isConflictDraw r = true := by
      unfold isConflictDraw
      exact decide_eq_true hr
    have hnle : ¬ r ≤ 7/10 := not_le.mpr hr
    constructor
    · simp [hd, hnle]
    · intro _
      simp [hd]
  · have hd : isConflictDraw r = false := by
      unfold isConflictDraw
      exact decide_eq_false hr
    have hle : r ≤ 7/10 := not_lt.mp hr
    constructor
    · simp [hd, hle]
    · intro hcon
      exact absurd hcon hr

/-- Witness for C3's amended statement at the draw one half: the
submitted stage comes out verified. -/
theorem c3_amended_fallback_classifier_witness :
    ((getStage
        (applyWrite
          ⟨"PO-1", "S", ProcessStatus.open_, none,
           ⟨StepStatus.pending, none, none, none⟩,
           ⟨StepStatus.pending, none, none, none⟩,
           ⟨StepStatus.pending, none, none, none⟩⟩
          (StoreWrite.fallbackWrite UploadStage.confirmation (isConflictDraw (1/2))))
        UploadStage.confirmation).status
      = StepStatus.verified ↔ (1 : ℚ)/2 ≤ 7/10) :=
  (c3_amended_fallback_classifier _ UploadStage.confirmation (1/2)
    (by norm_num) (by norm_num)).1

theorem buildStep_nullish (v : JSVal) (h : isNullish v = true) : buildStep v = defaultStep := by
  rcases v with _ | _ | s | n | b | fs
  · rfl
  · rfl
  · simp [isNullish] at h
  · simp [isNullish] at h
  · simp [isNullish] at h
  · simp [isNullish] at h

theorem buildStep_obj (fs : List (String × JSVal)) :
    buildStep (JSVal.obj fs) = mergeFields defaultStep fs := rfl

/-- C1 counterexample: buildProcess passes the stored status field
through instead of recomputing the precedence rule, so the system
produces a Process whose confirmation stage is conflict while its
aggregate status is open — the rule demands conflict. -/
theorem c1_counterexample :
    (buildProcess c1Record "PO-9").map
        (fun p => (p.status, jsGet p.confirmation "status"))
      = Except.ok (JSVal.str "open", JSVal.str "conflict")
    ∧ JSVal.str "open" ≠ JSVal.str "conflict" := by
  constructor
  · rfl
  · intro h
    injection h with h2
    exact absurd h2 (by decide)

/-- C1 amended: the precedence rule is not recomputed on read
(buildProcess passes the stored status through, see the
counterexample); it is honored by the fallback-classifier combined
write: the aggregate it stores equals the rule applied to the
post-write stage statuses, provided the stage not being submitted does
not independently override the written value — on a verified
confirmation draw the delivery stage is neither conflict nor verified,
and on a verified delivery draw the confirmation stage is not
conflict.  On conflict draws the rule holds unconditionally. -/
theorem c1_amended_fallback_write_follows_rule (p : ProcurementProcess)
    (stage : UploadStage) (isConflict : Bool)
    (hconf : stage = UploadStage.confirmation → isConflict = false →
      p.delivery.status ≠ StepStatus.conflict ∧ p.delivery.status ≠ StepStatus.verified)
    (hdel : stage = UploadStage.delivery → isConflict = false →
      p.confirmation.status ≠ StepStatus.conflict) :
    (applyWrite p (StoreWrite.fallbackWrite stage isConflict)).status
      = specDeriveStatus
          (applyWrite p (StoreWrite.fallbackWrite stage isConflict)).confirmation.status
          (applyWrite p (StoreWrite.fallbackWrite stage isConflict)).delivery.status := by
  cases stage with
  | confirmation =>
    cases isConflict with
    | true => simp [applyWrite, setStage, getStage, specDeriveStatus]
    | false =>
      obtain ⟨hd1, hd2⟩ := hconf rfl rfl
      simp [applyWrite, setStage, getStage, specDeriveStatus, hd1, hd2]
  | delivery =>
    cases isConflict with
    | true => simp [applyWrite, setStage, getStage, specDeriveStatus]
    | false =>
      have hc := hdel rfl rfl
      simp [applyWrite, setStage, getStage, specDeriveStatus, hc]

/-- Witness for C1's amended statement: a verified confirmation draw on
an all-pending process writes aggregate open, matching the rule. -/
theorem c1_amended_fallback_write_follows_rule_witness :
    (applyWrite
        ⟨"PO-1", "S", ProcessStatus.open_, none,
         ⟨StepStatus.pending, none, none, none⟩,
         ⟨StepStatus.pending, none, none, none⟩,
         ⟨StepStatus.pending, none, none, none⟩⟩
        (StoreWrite.fallbackWrite UploadStage.confirmation false)).status
      = specDeriveStatus
          (applyWrite
            ⟨"PO-1", "S", ProcessStatus.open_, none,
             ⟨StepStatus.pending, none, none, none⟩,
             ⟨StepStatus.pending, none, none, none⟩,
             ⟨StepStatus.pending, none, none, none⟩⟩
            (StoreWrite.fallbackWrite UploadStage.confirmation false)).confirmation.status
          (applyWrite
            ⟨"PO-1", "S", ProcessStatus.open_, none,
             ⟨StepStatus.pending, none, none, none⟩,
             ⟨StepStatus.pending, none, none, none⟩,
             ⟨StepStatus.pending, none, none, none⟩⟩
            (StoreWrite.fallbackWrite UploadStage.confirmation false)).delivery.status :=
  c1_amended_fallback_write_follows_rule _ UploadStage.confirmation false
    (fun _ _ => ⟨by decide, by decide⟩)
    (fun h _ => UploadStage.noConfusion h)

/-- C4 counterexample: a record whose id field is the number 42.  The
mapping calls .replace on it, which raises a TypeError — buildProcess
does not return a defaulted Process for every record shape. -/
theorem c4_counterexample :
    buildProcess [("id", JSVal.num 42)] "PO-7" = Except.error "TypeError" := rfl

/-- C4 amended: buildProcess never throws provided the record's id and
supplierName fields, where present, are strings (or null); under that
proviso every other field may be absent or of the wrong type.  A
missing or null status defaults to open, and each of the three stages
defaults to the pending defaultStep when its field is nullish, or to
defaultStep merged with the partial stage object when one is present.
A non-string, non-nullish id or supplierName raises a TypeError (see
the counterexample). -/
theorem c4_amended_never_throws_and_defaults (data : JSRecord) (fid : String)
    (hid : isStringOrNullish (jsGet data "id") = true)
    (hsup : isStringOrNullish (jsGet data "supplierName") = true) :
    (buildProcess data fid).isOk = true
    ∧ (isNullish (jsGet data "status") = true →
        (buildProcess data fid).map (fun p => p.status) = Except.ok (JSVal.str "open"))
    ∧ (isNullish (jsGet data "order") = true →
        (buildProcess data fid).map (fun p => p.order) = Except.ok defaultStep)
    ∧ (isNullish (jsGet data "confirmation") = true →
        (buildProcess data fid).map (fun p => p.confirmation) = Except.ok defaultStep)
    ∧ (isNullish (jsGet data "delivery") = true →
        (buildProcess data fid).map (fun p => p.delivery) = Except.ok defaultStep)
    ∧ (∀ fs, jsGet data "order" = JSVal.obj fs →
        (buildProcess data fid).map (fun p => p.order)
          = Except.ok (mergeFields defaultStep fs))
    ∧ (∀ fs, jsGet data "confirmation" = JSVal.obj fs →
        (buildProcess data fid).map (fun p => p.confirmation)
          = Except.ok (mergeFields defaultStep fs))
    ∧ (∀ fs, jsGet data "delivery" = JSVal.obj fs →
        (buildProcess data fid).map (fun p => p.delivery)
          = Except.ok (mergeFields defaultStep fs)) := by
  obtain ⟨i, hi⟩ : ∃ s, sanitizeJSString (nullishOr (jsGet data "id") (JSVal.str fid))
      = Except.ok s := by
    rcases hv : jsGet data "id" with _ | _ | s | n | b | fs
    · exact ⟨sanitizeTextInput fid, rfl⟩
    · exact ⟨sanitizeTextInput fid, rfl⟩
    · exact ⟨sanitizeTextInput s, rfl⟩
    · rw [hv] at hid
      simp [isStringOrNullish] at hid
    · rw [hv] at hid
      simp [isStringOrNullish] at hid
    · rw [hv] at hid
      simp [isStringOrNullish] at hid
  obtain ⟨j, hj⟩ : ∃ s, sanitizeJSString (nullishOr (jsGet data "supplierName")
      (JSVal.str "Unbekannt")) = Except.ok s := by
    rcases hv : jsGet data "supplierName" with _ | _ | s | n | b | fs
    · exact ⟨sanitizeTextInput "Unbekannt", rfl⟩
    · exact ⟨sanitizeTextInput "Unbekannt", rfl⟩
    · exact ⟨sanitizeTextInput s, rfl⟩
    · rw [hv] at hsup
      simp [isStringOrNullish] at hsup
    · rw [hv] at hsup
      simp [isStringOrNullish] at hsup
    · rw [hv] at hsup
      simp [isStringOrNullish] at hsup
  have hbuild : buildProcess data fid = Except.ok
      ⟨i, j,
       nullishOr (jsGet data "status") (JSVal.str "open"),
       nullishOr (jsGet data "createdAt") JSVal.null,
       buildStep (jsGet data "order"),
       buildStep (jsGet data "confirmation"),
       buildStep (jsGet data "delivery")⟩ := by
    unfold buildProcess
    rw [hi, hj]
  rw [hbuild]
  refine ⟨rfl, ?_, ?_, ?_, ?_, ?_, ?_, ?_⟩
  · intro hn
    rcases hv : jsGet data "status" with _ | _ | s | n | b | fs
    · rfl
    · rfl
    · rw [hv] at hn
      simp [isNullish] at hn
    · rw [hv] at hn
      simp [isNullish] at hn
    · rw [hv] at hn
      simp [isNullish] at hn
    · rw [hv] at hn
      simp [isNullish] at hn
  · intro hn
    rw [buildStep_nullish _ hn]
    rfl
  · intro hn
    rw [buildStep_nullish _ hn]
    rfl
  · intro hn
    rw [buildStep_nullish _ hn]
    rfl
  · intro fs hv
    rw [hv, buildStep_obj]
    rfl
  · intro fs hv
    rw [hv, buildStep_obj]
    rfl
  · intro fs hv
    rw [hv, buildStep_obj]
    rfl

/-- Witness for C4's amended statement: a record with no id, a null
supplierName, a wrong-typed createdAt and a partial confirmation stage
maps without raising; its status defaults to open and its order stage
to the pending default. -/
theorem c4_amended_never_throws_and_defaults_witness :
    (buildProcess
        [("supplierName", JSVal.null), ("createdAt", JSVal.boolVal true),
         ("confirmation", JSVal.obj [("status", JSVal.str "analyzing")])]
        "PO-8").isOk = true
    ∧ (buildProcess
        [("supplierName", JSVal.null), ("createdAt", JSVal.boolVal true),
         ("confirmation", JSVal.obj [("status", JSVal.str "analyzing")])]
        "PO-8").map (fun p => p.order) = Except.ok defaultStep := by
  have h := c4_amended_never_throws_and_defaults
    [("supplierName", JSVal.null), ("createdAt", JSVal.boolVal true),
     ("confirmation", JSVal.obj [("status", JSVal.str "analyzing")])]
    "PO-8" (by decide) (by decide)
  exact ⟨h.1, h.2.2.1 (by decide)⟩

/-- C5 counterexample: a successful snapshot followed by a listener
error leaves the connection state error with the previously built
collection still in memory — the error state does not come with an
empty collection. -/
theorem c5_counterexample :
    (runSync true [SyncEvent.snapshot [("PO-1", c5Doc)], SyncEvent.listenerError]).connectionStatus
        = ConnectionStatus.error
    ∧ (runSync true [SyncEvent.snapshot [("PO-1", c5Doc)], SyncEvent.listenerError]).items.isEmpty
        = false :=
  ⟨rfl, rfl⟩

/-- C5 amended: the collection is empty whenever the connection state
is error and no snapshot notification has been processed — in
particular on missing configuration at startup and on listener errors
preceding the first snapshot.  A listener error arriving after a
successful snapshot reports error but keeps the previously built
collection (see the counterexample). -/
theorem c5_amended_error_before_snapshot_empty (servicesPresent : Bool)
    (events : List SyncEvent)
    (hns : ∀ e ∈ events, isSnapshotEvent e = false)
    (herr : (runSync servicesPresent events).connectionStatus = ConnectionStatus.error) :
    (runSync servicesPresent events).items = [] := by
  have key : ∀ (evts : List SyncEvent) (st : SyncState),
      (∀ e ∈ evts, isSnapshotEvent e = false) →
      (evts.foldl stepSync st).items = st.items := by
    intro evts
    induction evts with
    | nil =>
      intro st _
      rfl
    | cons e rest ih =>
      intro st hall
      have he := hall e (List.mem_cons_self e rest)
      cases e with
      | snapshot docs => simp [isSnapshotEvent] at he
      | listenerError =>
        show (rest.foldl stepSync (stepSync st SyncEvent.listenerError)).items = st.items
        rw [ih _ (fun x hx => hall x (List.mem_cons_of_mem _ hx))]
        rfl
  show (events.foldl stepSync (initSyncState servicesPresent)).items = []
  rw [key events _ hns]
  cases servicesPresent with
  | true => rfl
  | false => rfl

/-- Witness for C5's amended statement: a listener error with no
services configured and no snapshot leaves the collection empty. -/
theorem c5_amended_error_before_snapshot_empty_witness :
    (runSync false [SyncEvent.listenerError]).items = [] :=
  c5_amended_error_before_snapshot_empty false [SyncEvent.listenerError]
    (by
      intro e he
      rw [List.mem_singleton] at he
      rw [he]
      rfl)
    rfl


theorem charListLt_asymm : ∀ (as bs : List Char),
    charListLt as bs = true → charListLt bs as = false := by
  intro as
  induction as with
  | nil =>
    intro bs h
    cases bs with
    | nil => exact absurd h Bool.noConfusion
    | cons b bs => rfl
  | cons a as ih =>
    intro bs h
    cases bs with
    | nil => exact absurd h Bool.noConfusion
    | cons b bs =>
      unfold charListLt at h ⊢
      by_cases h1 : a.toNat < b.toNat
      · rw [if_neg (by omega : ¬ b.toNat < a.toNat), if_pos h1]
      · rw [if_neg h1] at h
        by_cases h2 : b.toNat < a.toNat
        · rw [if_pos h2] at h
          exact absurd h Bool.noConfusion
        · rw [if_neg h2] at h
          rw [if_neg h2, if_neg h1]
          exact ih bs h

theorem charListLt_trans : ∀ (as bs cs : List Char),
    charListLt as bs = true → charListLt bs cs = true → charListLt as cs = true := by
  intro as
  induction as with
  | nil =>
    intro bs cs h1 h2
    cases bs with
    | nil => exact absurd h1 Bool.noConfusion
    | cons b bs =>
      cases cs with
      | nil => exact absurd h2 Bool.noConfusion
      | cons c cs => rfl
  | cons a as ih =>
    intro bs cs h1 h2
    cases bs with
    | nil => exact absurd h1 Bool.noConfusion
    | cons b bs =>
      cases cs with
      | nil => exact absurd h2 Bool.noConfusion
      | cons c cs =>
        unfold charListLt at h1 h2 ⊢
        by_cases hab : a.toNat < b.toNat
        · by_cases hbc : b.toNat < c.toNat
          · rw [if_pos (by omega : a.toNat < c.toNat)]
          · rw [if_neg hbc] at h2
            by_cases hcb : c.toNat < b.toNat
            · rw [if_pos hcb] at h2
              exact absurd h2 Bool.noConfusion
            · rw [if_pos (by omega : a.toNat < c.toNat)]
        · rw [if_neg hab] at h1
          by_cases hba : b.toNat < a.toNat
          · rw [if_pos hba] at h1
            exact absurd h1 Bool.noConfusion
          · rw [if_neg hba] at h1
            by_cases hbc : b.toNat < c.toNat
            · rw [if_pos (by omega : a.toNat < c.toNat)]
            · rw [if_neg hbc] at h2
              by_cases hcb : c.toNat < b.toNat
              · rw [if_pos hcb] at h2
                exact absurd h2 Bool.noConfusion
              · rw [if_neg hcb] at h2
                rw [if_neg (by omega : ¬ a.toNat < c.toNat),
                    if_neg (by omega : ¬ c.toNat < a.toNat)]
                exact ih bs cs h1 h2

theorem charListLt_antisymm : ∀ (as bs : List Char),
    charListLt as bs = false → charListLt bs as = false → as = bs := by
  intro as
  induction as with
  | nil =>
    intro bs h1 h2
    cases bs with
    | nil => rfl
    | cons b bs => exact absurd h1 Bool.noConfusion
  | cons a as ih =>
    intro bs h1 h2
    cases bs with
    | nil => exact absurd h2 Bool.noConfusion
    | cons b bs =>
      unfold charListLt at h1 h2
      by_cases hab : a.toNat < b.toNat
      · rw [if_pos hab] at h1
        exact absurd h1 Bool.noConfusion
      · rw [if_neg hab] at h1
        by_cases hba : b.toNat < a.toNat
        · rw [if_pos hba] at h2
          exact absurd h2 Bool.noConfusion
        · rw [if_neg hba] at h1
          rw [if_neg hba, if_neg hab] at h2
          have h4 : a.toNat = b.toNat := by omega
          have hchar : a = b := Char.ext (UInt32.ext h4)
          rw [hchar, ih bs h1 h2]

theorem strLt_asymm (a b : String) (h : strLt a b = true) : strLt b a = false :=
  charListLt_asymm a.data b.data h

theorem strLt_trans (a b c : String) (h1 : strLt a b = true) (h2 : strLt b c = true) :
    strLt a c = true :=
  charListLt_trans a.data b.data c.data h1 h2

theorem strLt_antisymm (a b : String) (h1 : strLt a b = false) (h2 : strLt b a = false) :
    a = b := by
  have hd := charListLt_antisymm a.data b.data h1 h2
  cases a with
  | mk la =>
    cases b with
    | mk lb =>
      have h3 : la = lb := hd
      rw [h3]

theorem strLt_false_of_lt_of_not_lt (a b x : String)
    (h1 : strLt a b = true) (h2 : strLt a x = false) : strLt b x = false := by
  by_contra hbx
  rw [Bool.not_eq_false] at hbx
  rw [strLt_trans a b x h1 hbx] at h2
  exact Bool.noConfusion h2

theorem insertDescById_perm (p : BuiltProcess) (l : List BuiltProcess) :
    (insertDescById p l).Perm (p :: l) := by
  induction l with
  | nil => exact List.Perm.refl _
  | cons q rest ih =>
    unfold insertDescById
    by_cases h : strLt q.id p.id = true
    · rw [if_pos h]
    · rw [if_neg h]
      exact List.Perm.trans (List.Perm.cons q ih) (List.Perm.swap p q rest)

theorem mem_insertDescById (x p : BuiltProcess) (l : List BuiltProcess)
    (h : x ∈ insertDescById p l) : x = p ∨ x ∈ l := by
  have hm := (insertDescById_perm p l).mem_iff.mp h
  rwa [List.mem_cons] at hm

theorem insertDescById_sorted (p : BuiltProcess) (l : List BuiltProcess)
    (h : sortedByIdDesc l) : sortedByIdDesc (insertDescById p l) := by
  induction l with
  | nil => exact List.pairwise_singleton _ _
  | cons q rest ih =>
    unfold insertDescById
    rcases List.pairwise_cons.mp h with ⟨hq, hrest⟩
    by_cases hlt : strLt q.id p.id = true
    · rw [if_pos hlt]
      apply List.pairwise_cons.mpr
      refine ⟨?_, h⟩
      intro x hx
      rcases List.mem_cons.mp hx with rfl | hx2
      · exact strLt_asymm _ _ hlt
      · exact strLt_false_of_lt_of_not_lt q.id p.id x.id hlt (hq x hx2)
    · rw [if_neg hlt]
      apply List.pairwise_cons.mpr
      refine ⟨?_, ih hrest⟩
      intro x hx
      rcases mem_insertDescById x p rest hx with rfl | hx2
      · exact Bool.eq_false_iff.mpr hlt
      · exact hq x hx2

theorem sortDescById_perm (l : List BuiltProcess) : (sortDescById l).Perm l := by
  have key : ∀ (rest acc : List BuiltProcess),
      (rest.foldl (fun a p => insertDescById p a) acc).Perm (acc ++ rest) := by
    intro rest
    induction rest with
    | nil =>
      intro acc
      simp
    | cons x t ih =>
      intro acc
      show (t.foldl _ (insertDescById x acc)).Perm (acc ++ x :: t)
      have h1 := ih (insertDescById x acc)
      have h2 : (insertDescById x acc ++ t).Perm ((x :: acc) ++ t) :=
        (insertDescById_perm x acc).append_right t
      have h4 : (x :: (acc ++ t)).Perm (acc ++ x :: t) := List.perm_middle.symm
      exact h1.trans (h2.trans h4)
  have hk := key l []
  simpa using hk

theorem sortDescById_sorted (l : List BuiltProcess) : sortedByIdDesc (sortDescById l) := by
  have key : ∀ (rest acc : List BuiltProcess), sortedByIdDesc acc →
      sortedByIdDesc (rest.foldl (fun a p => insertDescById p a) acc) := by
    intro rest
    induction rest with
    | nil =>
      intro acc h
      exact h
    | cons x t ih =>
      intro acc h
      exact ih _ (insertDescById_sorted x acc h)
  exact key l [] List.Pairwise.nil

theorem eq_of_perm_sorted_nodup :
    ∀ (l1 l2 : List BuiltProcess), l1.Perm l2 → sortedByIdDesc l1 → sortedByIdDesc l2 →
      (l1.map (fun p => p.id)).Nodup → l1 = l2 := by
  intro l1
  induction l1 with
  | nil =>
    intro l2 hp _ _ _
    exact (hp.symm.eq_nil).symm
  | cons a t1 ih =>
    intro l2 hp hs1 hs2 hnd
    cases l2 with
    | nil => exact absurd hp.eq_nil (by simp)
    | cons b t2 =>
      have hab : a = b := by
        have hbmem : b ∈ a :: t1 := hp.symm.subset (List.mem_cons_self b t2)
        have hamem : a ∈ b :: t2 := hp.subset (List.mem_cons_self a t1)
        rcases List.mem_cons.mp hbmem with h1 | h1
        · exact h1.symm
        rcases List.mem_cons.mp hamem with h2 | h2
        · exact h2
        have hba : strLt a.id b.id = false := (List.pairwise_cons.mp hs1).1 b h1
        have hab2 : strLt b.id a.id = false := (List.pairwise_cons.mp hs2).1 a h2
        have hid : a.id = b.id := strLt_antisymm _ _ hba hab2
        exfalso
        have hmem : a.id ∈ t1.map (fun p => p.id) := by
          rw [hid]
          exact List.mem_map_of_mem _ h1
        exact (List.nodup_cons.mp hnd).1 hmem
      subst hab
      have htp : t1.Perm t2 := hp.cons_inv
      have hteq := ih t2 htp (List.pairwise_cons.mp hs1).2 (List.pairwise_cons.mp hs2).2
        (List.nodup_cons.mp hnd).2
      rw [hteq]

/-- C7: on every notification the synchronizer produces the collection
sorted by id in descending lexicographic order — the output is a
sorted permutation of the mapped documents, two arrival orders of the
same documents (with distinct ids) produce the same collection, and in
particular the ids PO-002, PO-010, PO-001 come out PO-010, PO-002,
PO-001 in either arrival order. -/
theorem c7_sorted_desc_by_id :
    (∀ l, sortedByIdDesc (sortDescById l))
    ∧ (∀ l, (sortDescById l).Perm l)
    ∧ (∀ l1 l2, l1.Perm l2 → (l1.map (fun p => p.id)).Nodup →
        sortDescById l1 = sortDescById l2)
    ∧ ((runSync true [SyncEvent.snapshot
          [("PO-002", ([] : JSRecord)), ("PO-010", ([] : JSRecord)),
           ("PO-001", ([] : JSRecord))]]).items.map (fun p => p.id)
        = ["PO-010", "PO-002", "PO-001"])
    ∧ ((runSync true [SyncEvent.snapshot
          [("PO-001", ([] : JSRecord)), ("PO-002", ([] : JSRecord)),
           ("PO-010", ([] : JSRecord))]]).items.map (fun p => p.id)
        = ["PO-010", "PO-002", "PO-001"]) := by
  refine ⟨sortDescById_sorted, sortDescById_perm, ?_, ?_, ?_⟩
  · intro l1 l2 hp hnd
    apply eq_of_perm_sorted_nodup
    · exact (sortDescById_perm l1).trans (hp.trans (sortDescById_perm l2).symm)
    · exact sortDescById_sorted l1
    · exact sortDescById_sorted l2
    · have hmp : ((sortDescById l1).map (fun p => p.id)).Perm (l1.map (fun p => p.id)) :=
        (sortDescById_perm l1).map _
      exact hmp.nodup_iff.mpr hnd
  · decide
  · decide

/-- Witness for C7 at two concrete arrival orders of two documents. -/
theorem c7_sorted_desc_by_id_witness :
    sortDescById
        [⟨"PO-002", "S", JSVal.null, JSVal.null, [], [], []⟩,
         ⟨"PO-010", "S", JSVal.null, JSVal.null, [], [], []⟩]
      = sortDescById
        [⟨"PO-010", "S", JSVal.null, JSVal.null, [], [], []⟩,
         ⟨"PO-002", "S", JSVal.null, JSVal.null, [], [], []⟩] :=
  c7_sorted_desc_by_id.2.2.1 _ _
    (List.Perm.swap _ _ [])
    (by decide)
